import Mathlib

/-
Verification of the MCP client-manager core of the mattermost-plugin-ai
repository against its natural-language specification.

The Go code is shallowly embedded: Go maps become association lists with
lookup/insert-overwrite semantics, time.Time / time.Duration become Nat
(seconds), goroutine-owned state (the cleanup ticker loop guarded by
closeChan) becomes explicit state with a `closed` flag, and the per-server
network connect is a function parameter.  Error returns become Except /
Option String.
-/

namespace MCP

/-- User identifiers, as in the Go code (map keys of ClientManager.clients). -/
abbrev UserID := String

/-- Instants, in seconds.  Go uses time.Time / time.Duration (nanoseconds);
only differences and comparisons of times occur in this code, so the unit is
a pure scale factor and seconds suffice to express minute-granularity
timeouts as well as the sub-minute idle times of the spec's scenarios. -/
abbrev Time := Nat

/-- Modelled from the spec: ServerConfig (the ServerDescriptor of the spec) is
opaque to this core — its fields (transport target, kind, credentials) are
consumed only by ServerSession construction, which is outside the given
sources.  A single opaque payload field stands for them. -/
structure ServerConfig where
  descriptor : String
  deriving Repr, DecidableEq

/-- Config mirrors the Go struct: Enabled, Servers (a map serverName →
ServerConfig, embedded as an association list) and IdleTimeoutMinutes (a Go
int, hence Int). -/
structure Config where
  enabled : Bool
  servers : List (String × ServerConfig)
  idleTimeoutMinutes : Int
  deriving Repr, DecidableEq

/-- Modelled from the spec: ToolDefinition carries name, description,
parameter schema, and the implicit binding to the server (session) that must
execute it.  The type itself is not among the given sources; the binding is
represented by the logical server name. -/
structure ToolDefinition where
  name : String
  description : String
  parameterSchema : String
  serverName : String
  deriving Repr, DecidableEq

/-- UserClient mirrors the Go struct (the spec's UserSessionSet): the merged
tool catalog keyed by tool name, the last-activity timestamp and the owning
user.  `closeErr` models the outcome that this client's Close() — closing all
of its ServerConnections, code outside the given sources — would report:
none for success, some e for a close failure. -/
structure UserClient where
  toolDefs : List (String × ToolDefinition)
  lastActivity : Time
  userID : UserID
  closeErr : Option String
  deriving Repr, DecidableEq

/-- ClientManager mirrors the Go struct: the config, the registry clients
(map userID → UserClient), the effective idle timeout (clientTimeout, in
seconds), and `closed`, which models whether closeChan has been closed (the
cleanup goroutine exits, and must not run again, once it has). -/
structure ClientManager where
  config : Config
  clients : List (UserID × UserClient)
  clientTimeout : Nat
  closed : Bool
  deriving Repr, DecidableEq

/-- Association-list lookup: the value stored under key k, Go map read. -/
def lookupA {α : Type} (l : List (String × α)) (k : String) : Option α :=
  match l with
  | [] => none
  | (k1, v) :: rest => if k1 = k then some v else lookupA rest k

/-- Association-list insert with overwrite: Go map write m[k] = v. -/
def insertA {α : Type} (l : List (String × α)) (k : String) (v : α) : List (String × α) :=
  match l with
  | [] => [(k, v)]
  | (k1, v1) :: rest => if k1 = k then (k, v) :: rest else (k1, v1) :: insertA rest k v

/-- NewClientManager embeds the Go constructor: default the idle timeout to
30 minutes when the configured value is non-positive, return (nil, nil) when
disabled or no servers are configured, and otherwise an active manager (empty
registry, closeChan open i.e. closed = false, cleanup goroutine started).
The pair mirrors the Go (manager, error) return. -/
def NewClientManager (config : Config) : Option ClientManager × Option String :=
  let config :=
    if config.idleTimeoutMinutes ≤ 0 then
      { config with idleTimeoutMinutes := 30 }
    else config
  if !config.enabled || config.servers.isEmpty then
    (none, none)
  else
    (some { config := config
            clients := []
            clientTimeout := config.idleTimeoutMinutes.toNat * 60
            closed := false },
     none)

/-- Modelled from the spec: registering one server's advertised tools into the
aggregated catalog.  Each tool is stored keyed by its name with the binding to
the registering server; a later registration of an already-present name
overwrites the earlier one (map write semantics). -/
def registerTools (defs : List (String × ToolDefinition)) (serverName : String)
    (tools : List ToolDefinition) : List (String × ToolDefinition) :=
  match tools with
  | [] => defs
  | t :: rest => registerTools (insertA defs t.name { t with serverName := serverName }) serverName rest

/-- Modelled from the spec: UserClient.ConnectToAllServers is called from
createAndStoreUserClient but its body is not among the given sources.  Per the
spec (section 4.2), it opens a ServerSession per configured server in order,
merging each successfully-listed server's advertised tools into toolDefs keyed
by tool name (later registration overwrites on collision), and fails with the
first encountered per-server connection error, aborting the whole operation.
The connect parameter stands for the per-server handshake + tool listing:
it returns the tools that server advertises, or a connection error. -/
def ConnectToAllServers (connect : String → ServerConfig → Except String (List ToolDefinition))
    (servers : List (String × ServerConfig)) (uc : UserClient) : Except String UserClient :=
  match servers with
  | [] => Except.ok uc
  | (name, sc) :: rest =>
    match connect name sc with
    | Except.error e => Except.error e
    | Except.ok tools =>
      ConnectToAllServers connect rest { uc with toolDefs := registerTools uc.toolDefs name tools }

/-- The fresh UserClient literal built in createAndStoreUserClient: empty tool
catalog, lastActivity set to the current time.  Its sessions have not failed,
so its close outcome is modelled as success. -/
def newUserClient (userID : UserID) (now : Time) : UserClient :=
  { toolDefs := [], lastActivity := now, userID := userID, closeErr := none }

/-- createAndStoreUserClient embeds the Go method: under the exclusive lock,
re-check the registry (another goroutine may have created the client first);
on a hit refresh lastActivity and return the client; on a miss build a fresh
UserClient, run the multi-server connect sequence, and only on success publish
the client into the registry — a connect failure stores nothing.  The Nat
component is ghost instrumentation counting how many multi-server connect
sequences (ConnectToAllServers calls) this invocation issues (0 or 1);
erasing it leaves exactly the Go function. -/
def createAndStoreUserClient (connect : String → ServerConfig → Except String (List ToolDefinition))
    (m : ClientManager) (userID : UserID) (now : Time) :
    Except String UserClient × ClientManager × Nat :=
  match lookupA m.clients userID with
  | some client =>
    let client := { client with lastActivity := now }
    (Except.ok client, { m with clients := insertA m.clients userID client }, 0)
  | none =>
    match ConnectToAllServers connect m.config.servers (newUserClient userID now) with
    | Except.error e =>
      (Except.error ("failed to initialize MCP client for user " ++ userID ++ ": " ++ e), m, 1)
    | Except.ok uc =>
      (Except.ok uc, { m with clients := insertA m.clients userID uc }, 1)

/-- getClientForUser embeds the Go method: under the shared read lock, look the
user up; on a hit refresh lastActivity and return the client; on a miss fall
through to createAndStoreUserClient (which re-checks under the exclusive
lock).  Same ghost connect counter as createAndStoreUserClient. -/
def getClientForUser (connect : String → ServerConfig → Except String (List ToolDefinition))
    (m : ClientManager) (userID : UserID) (now : Time) :
    Except String UserClient × ClientManager × Nat :=
  match lookupA m.clients userID with
  | some client =>
    let client := { client with lastActivity := now }
    (Except.ok client, { m with clients := insertA m.clients userID client }, 0)
  | none => createAndStoreUserClient connect m userID now

/-- Modelled from the spec: UserClient.GetTools (the spec's Catalog()) is not
among the given sources; per the spec it returns the merged tool list as a
read-only projection of the aggregated catalog, with no further discovery. -/
def UserClient.GetTools (uc : UserClient) : List ToolDefinition :=
  uc.toolDefs.map (fun p => p.2)

/-- GetToolsForUser embeds the Go method: get or create the client for the
user, wrapping a failure, and on success return the client's tools. -/
def GetToolsForUser (connect : String → ServerConfig → Except String (List ToolDefinition))
    (m : ClientManager) (userID : UserID) (now : Time) :
    Except String (List ToolDefinition) × ClientManager × Nat :=
  match getClientForUser connect m userID now with
  | (Except.error e, m1, n) =>
    (Except.error ("failed to get MCP client for user " ++ userID ++ ": " ++ e), m1, n)
  | (Except.ok uc, m1, n) => (Except.ok uc.GetTools, m1, n)

/-- Whether an entry counts as inactive at instant now: the Go test
now.Sub(client.lastActivity) > m.clientTimeout (strict). -/
def expiredAt (m : ClientManager) (now : Time) (c : UserClient) : Bool :=
  decide (m.clientTimeout < now - c.lastActivity)

/-- One iteration of the for-range loop inside the ticker case of
cleanupInactiveClients, acting on the (kept entries, logged errors)
accumulator: an entry idle strictly longer than the timeout has its client
closed — a close failure is appended to the log and does not stop the loop —
and is dropped from the registry either way; any other entry is kept. -/
def cleanupStep (m : ClientManager) (now : Time)
    (acc : List (UserID × UserClient) × List String) (p : UserID × UserClient) :
    List (UserID × UserClient) × List String :=
  if expiredAt m now p.2 then
    match p.2.closeErr with
    | some e => (acc.1, acc.2 ++ [e])
    | none => acc
  else (acc.1 ++ [p], acc.2)

/-- One body of the ticker case of cleanupInactiveClients, embedded as the
Go for-range loop over the registry stepping cleanupStep: the surviving
registry and the logged close-failure messages. -/
def cleanupInactiveClientsPass (m : ClientManager) (now : Time) :
    ClientManager × List String :=
  let r := m.clients.foldl (cleanupStep m now) ([], [])
  ({ m with clients := r.1 }, r.2)

/-- One iteration of the select loop of cleanupInactiveClients: a ticker tick
runs an eviction pass, but once closeChan has been closed (closed = true) the
goroutine has stopped the ticker and returned, so nothing happens. -/
def cleanupInactiveClientsTick (m : ClientManager) (now : Time) :
    ClientManager × List String :=
  if m.closed then (m, []) else cleanupInactiveClientsPass m now

/-- One iteration of the close loop of ClientManager.Close acting on the
lastErr accumulator: closing a client is modelled by reading off its closeErr
outcome; a failure replaces lastErr (earlier failures are only logged), a
success leaves it unchanged. -/
def closeClientsStep (acc : Option String) (p : UserID × UserClient) : Option String :=
  match p.2.closeErr with
  | some e => some e
  | none => acc

/-- Close embeds the Go method: close closeChan and stop the ticker (closed
becomes true, so ticks do nothing afterwards), close every remaining client —
the loop steps closeClientsStep, so lastErr keeps only the most recent
failure — and clear the registry. -/
def ClientManager.Close (m : ClientManager) : ClientManager × Option String :=
  let lastErr := m.clients.foldl closeClientsStep (none : Option String)
  ({ m with clients := [], closed := true }, lastErr)

/-- Where one catalog request for a fixed user stands in getClientForUser.
The RWMutex makes the shared-lock registry read and the exclusive-lock body of
createAndStoreUserClient each atomic, so a caller is a two-step program:
start (about to do the read-locked lookup) and, after a miss, create (about to
run the exclusive-locked createAndStoreUserClient); done b records completion
with b = true on success. -/
inductive CallerPhase where
  | start
  | create
  | done : Bool → CallerPhase
  deriving Repr, DecidableEq

/-- Global state of several concurrent getClientForUser calls for one user:
the shared manager, the ghost count of multi-server connect sequences issued
so far, and each caller's phase. -/
structure ConcurrentRun where
  mgr : ClientManager
  connects : Nat
  phases : List CallerPhase
  deriving Repr, DecidableEq

/-- One atomic step of caller i: from start, perform the read-locked lookup —
a hit refreshes lastActivity and completes, a miss moves to create; from
create, run createAndStoreUserClient atomically (lock-recheck-connect-store)
and complete with its outcome, adding its connect count to the ghost total. -/
def callerStep (connect : String → ServerConfig → Except String (List ToolDefinition))
    (u : UserID) (now : Time) (s : ConcurrentRun) (i : Nat) : ConcurrentRun :=
  match s.phases[i]? with
  | none => s
  | some CallerPhase.start =>
    match lookupA s.mgr.clients u with
    | some c =>
      { s with
        mgr := { s.mgr with clients := insertA s.mgr.clients u { c with lastActivity := now } }
        phases := s.phases.set i (CallerPhase.done true) }
    | none => { s with phases := s.phases.set i CallerPhase.create }
  | some CallerPhase.create =>
    let r := createAndStoreUserClient connect s.mgr u now
    { s with
      mgr := r.2.1
      connects := s.connects + r.2.2
      phases := s.phases.set i (CallerPhase.done (match r.1 with
        | Except.ok _ => true
        | Except.error _ => false)) }
  | some (CallerPhase.done _) => s

/-- Run an interleaving: the schedule lists, in order, which caller takes the
next atomic step. -/
def runSchedule (connect : String → ServerConfig → Except String (List ToolDefinition))
    (u : UserID) (now : Time) (s : ConcurrentRun) (sched : List Nat) : ConcurrentRun :=
  match sched with
  | [] => s
  | i :: rest => runSchedule connect u now (callerStep connect u now s i) rest

/-- Initial state of n concurrent catalog requests against manager m: no
connect sequence issued yet, every caller about to do its first lookup. -/
def initRun (m : ClientManager) (n : Nat) : ConcurrentRun :=
  { mgr := m, connects := 0, phases := List.replicate n CallerPhase.start }

/-- Iterated eviction passes at the given instants, in order. -/
def runPasses (m : ClientManager) (times : List Time) : ClientManager :=
  match times with
  | [] => m
  | x :: rest => runPasses (cleanupInactiveClientsPass m x).1 rest

/-- Whether a caller has completed its catalog request. -/
def isDonePhase : CallerPhase → Bool
  | CallerPhase.done _ => true
  | CallerPhase.start => false
  | CallerPhase.create => false

/-- Invariant of concurrent first access when every per-server connect
succeeds: the configuration is fixed, at most one connect sequence has been
issued — exactly one once the user is registered — and every completed caller
succeeded and saw the user registered. -/
def SingleFlightInv (u : UserID) (cfg : Config) (s : ConcurrentRun) : Prop :=
  s.mgr.config = cfg ∧
  s.connects ≤ 1 ∧
  ((lookupA s.mgr.clients u).isSome = true ↔ s.connects = 1) ∧
  (∀ (i : Nat) (b : Bool), s.phases[i]? = some (CallerPhase.done b) →
    b = true ∧ (lookupA s.mgr.clients u).isSome = true)

/-- Invariant of concurrent first access when the connect sequence always
fails: nothing is ever cached for the user, every completed caller got a
failure, and the number of connect sequences issued equals the number of
completed callers — each one re-attempted on its own. -/
def FailRetryInv (u : UserID) (cfg : Config) (s : ConcurrentRun) : Prop :=
  s.mgr.config = cfg ∧
  lookupA s.mgr.clients u = none ∧
  s.connects = s.phases.countP isDonePhase ∧
  (∀ (i : Nat) (b : Bool), s.phases[i]? = some (CallerPhase.done b) → b = false)

/-- Sample server configuration used by the concrete witnesses below. -/
def srvW : ServerConfig := { descriptor := "stdio" }

/-- Sample configuration: enabled, one server, non-positive idle timeout. -/
def cfgW : Config := { enabled := true, servers := [("srv", srvW)], idleTimeoutMinutes := 0 }

/-- The manager NewClientManager builds from cfgW. -/
def mgrW : ClientManager :=
  { config := { enabled := true, servers := [("srv", srvW)], idleTimeoutMinutes := 30 }
    clients := []
    clientTimeout := 1800
    closed := false }

/-- Sample tool advertised by the sample server. -/
def toolW : ToolDefinition :=
  { name := "x", description := "a tool", parameterSchema := "obj", serverName := "" }

/-- Per-server connect that always succeeds, advertising toolW. -/
def connectOkW : String → ServerConfig → Except String (List ToolDefinition) :=
  fun _ _ => Except.ok [toolW]

/-- Per-server connect that always fails. -/
def connectFailW : String → ServerConfig → Except String (List ToolDefinition) :=
  fun _ _ => Except.error "connection refused"

/-- A second sample tool advertising the same name as toolW. -/
def tool2W : ToolDefinition :=
  { name := "x", description := "another tool", parameterSchema := "obj", serverName := "" }

/-- Per-server connect where server a advertises toolW and every other server
advertises tool2W — both tools named x. -/
def connectTwoW : String → ServerConfig → Except String (List ToolDefinition) :=
  fun nm _ => if nm = "a" then Except.ok [toolW] else Except.ok [tool2W]

/-- The user client that connecting to servers a then b through connectTwoW
produces: one catalog entry for x, bound to the later server b. -/
def ucTwoW : UserClient :=
  { toolDefs := [("x", { tool2W with serverName := "b" })]
    lastActivity := 0
    userID := "u1"
    closeErr := none }

/-- Sample registered client whose sessions close without error. -/
def aliceClientW : UserClient :=
  { toolDefs := [("x", { toolW with serverName := "srv" })]
    lastActivity := 1000
    userID := "alice"
    closeErr := none }

/-- Sample registered client whose sessions fail to close. -/
def bobClientW : UserClient :=
  { toolDefs := [], lastActivity := 0, userID := "bob", closeErr := some "close failed" }

/-- Sample manager with two registered clients. -/
def mgrAW : ClientManager :=
  { config := { enabled := true, servers := [("srv", srvW)], idleTimeoutMinutes := 30 }
    clients := [("alice", aliceClientW), ("bob", bobClientW)]
    clientTimeout := 1800
    closed := false }

end MCP

namespace Conversations

/-- The llm.ToolCallStatus values used by HandleToolCall (the llm package is
outside the given sources; the three constants the handler assigns are
ToolCallStatusSuccess, ToolCallStatusError and ToolCallStatusRejected, and
pending is the state a call is in before resolution). -/
inductive ToolCallStatus where
  | pending
  | success
  | error
  | rejected
  deriving Repr, DecidableEq

/-- The fields of llm.ToolCall that HandleToolCall reads and writes: the call
id (matched against acceptedToolIDs), the tool name and raw arguments passed
to ResolveTool, and the result text and status the handler fills in. -/
structure ToolCall where
  id : String
  name : String
  arguments : String
  result : String
  status : ToolCallStatus
  deriving Repr, DecidableEq

/-- The body of the resolution loop of HandleToolCall for one pending tool
call: an accepted call is resolved — a resolution failure becomes the textual
result Tool call failed with error status, and the loop continues — while a
call the user did not accept is marked rejected.  resolveTool stands for
llmContext.Tools.ResolveTool applied to the call's name and arguments. -/
def resolveOne (resolveTool : String → String → Except String String)
    (acceptedToolIDs : List String) (tc : ToolCall) : ToolCall :=
  if acceptedToolIDs.contains tc.id then
    match resolveTool tc.name tc.arguments with
    | Except.error _ => { tc with result := "Tool call failed", status := ToolCallStatus.error }
    | Except.ok r => { tc with result := r, status := ToolCallStatus.success }
  else
    { tc with result := "Tool call rejected by user", status := ToolCallStatus.rejected }

/-- The full resolution loop of HandleToolCall over the batch of pending tool
calls: each call is processed independently in order; no per-call outcome
aborts the loop. -/
def resolveToolCalls (resolveTool : String → String → Except String String)
    (acceptedToolIDs : List String) (tools : List ToolCall) : List ToolCall :=
  match tools with
  | [] => []
  | tc :: rest => resolveOne resolveTool acceptedToolIDs tc ::
      resolveToolCalls resolveTool acceptedToolIDs rest

/-- The gate after the loop: HandleToolCall goes on to request a final chat
completion only if at least one tool call in the batch was successful
(slices.ContainsFunc over the resolved statuses). -/
def proceedsToCompletion (tools : List ToolCall) : Bool :=
  tools.any (fun tc => tc.status == ToolCallStatus.success)

/-- The decision core of HandleToolCall: resolve the batch, then report the
resolved batch together with whether the handler proceeds to request a final
completion answer. -/
def HandleToolCallCore (resolveTool : String → String → Except String String)
    (acceptedToolIDs : List String) (tools : List ToolCall) : List ToolCall × Bool :=
  let resolved := resolveToolCalls resolveTool acceptedToolIDs tools
  (resolved, proceedsToCompletion resolved)

/-- Sample resolver used by the concrete witnesses: the tool good resolves,
any other tool fails to resolve. -/
def resolveW : String → String → Except String String :=
  fun nm _ => if nm = "good" then Except.ok "fine" else Except.error "bad tool"

/-- Sample accepted pending tool call that resolves. -/
def tcGood : ToolCall :=
  { id := "1", name := "good", arguments := "args", result := "", status := ToolCallStatus.pending }

/-- Sample accepted pending tool call whose resolution fails. -/
def tcBad : ToolCall :=
  { id := "2", name := "broken", arguments := "args", result := "", status := ToolCallStatus.pending }

end Conversations

namespace MCP

theorem lookupA_insertA_self {α : Type} (l : List (String × α)) (k : String) (v : α) :
    lookupA (insertA l k v) k = some v := by
  induction l with
  | nil => simp [insertA, lookupA]
  | cons p rest ih =>
    obtain ⟨k1, v1⟩ := p
    by_cases h : k1 = k
    · simp [insertA, h, lookupA]
    · simp [insertA, h, lookupA, ih]

theorem lookupA_filter {α : Type} (p : String × α → Bool) (l : List (String × α))
    (k : String) (v : α) (hl : lookupA l k = some v) (hp : p (k, v) = true) :
    lookupA (l.filter p) k = some v := by
  induction l with
  | nil => simp [lookupA] at hl
  | cons q rest ih =>
    obtain ⟨k1, v1⟩ := q
    by_cases h : k1 = k
    · subst h
      simp [lookupA] at hl
      subst hl
      simp [List.filter_cons, hp, lookupA]
    · simp [lookupA, h] at hl
      cases hq : p (k1, v1)
      · simp [List.filter_cons, hq, ih hl]
      · simp [List.filter_cons, hq, lookupA, h, ih hl]

theorem cleanup_foldl (m : ClientManager) (now : Time) (l : List (UserID × UserClient))
    (acc : List (UserID × UserClient) × List String) :
    l.foldl (cleanupStep m now) acc =
      (acc.1 ++ l.filter (fun p => !(expiredAt m now p.2)),
       acc.2 ++ (l.filter (fun p => expiredAt m now p.2)).filterMap (fun p => p.2.closeErr)) := by
  induction l generalizing acc with
  | nil => simp
  | cons p rest ih =>
    rw [List.foldl_cons, ih]
    cases hE : expiredAt m now p.2
    · simp [cleanupStep, hE, List.filter_cons]
    · cases hc : p.2.closeErr
      · simp [cleanupStep, hE, hc, List.filter_cons]
      · simp [cleanupStep, hE, hc, List.filter_cons]

theorem cleanupPass_clients (m : ClientManager) (now : Time) :
    (cleanupInactiveClientsPass m now).1.clients =
      m.clients.filter (fun p => !(expiredAt m now p.2)) := by
  simp [cleanupInactiveClientsPass, cleanup_foldl]

theorem cleanupPass_logs (m : ClientManager) (now : Time) :
    (cleanupInactiveClientsPass m now).2 =
      (m.clients.filter (fun p => expiredAt m now p.2)).filterMap (fun p => p.2.closeErr) := by
  simp [cleanupInactiveClientsPass, cleanup_foldl]

theorem cleanupPass_fields (m : ClientManager) (now : Time) :
    (cleanupInactiveClientsPass m now).1.clientTimeout = m.clientTimeout ∧
    (cleanupInactiveClientsPass m now).1.config = m.config ∧
    (cleanupInactiveClientsPass m now).1.closed = m.closed := by
  refine ⟨rfl, rfl, rfl⟩

theorem newClientManager_characterization (config : Config) (mgr : ClientManager) :
    (NewClientManager config).1 = some mgr ↔
      config.enabled = true ∧ config.servers ≠ [] ∧
      mgr = { config :=
                { config with idleTimeoutMinutes :=
                    if config.idleTimeoutMinutes ≤ 0 then 30 else config.idleTimeoutMinutes }
              clients := []
              clientTimeout :=
                (if config.idleTimeoutMinutes ≤ 0 then (30 : Int)
                 else config.idleTimeoutMinutes).toNat * 60
              closed := false } := by
  obtain ⟨ce, cs, ci⟩ := config
  cases he : ce <;> cases hs : cs <;>
    by_cases ht : ci ≤ 0 <;>
      simp [NewClientManager, he, hs, ht, eq_comm]

theorem close_foldl (l : List (UserID × UserClient)) (acc : Option String) :
    l.foldl closeClientsStep acc =
      ((l.filterMap (fun p => p.2.closeErr)).getLast?).or acc := by
  induction l generalizing acc with
  | nil => simp
  | cons p rest ih =>
    rw [List.foldl_cons, ih]
    cases hc : p.2.closeErr with
    | none => simp [closeClientsStep, hc]
    | some e =>
      simp only [closeClientsStep, hc, List.filterMap_cons, List.getLast?_cons]
      cases hr : (rest.filterMap (fun p => p.2.closeErr)).getLast? <;> simp [hr]

/-- Claim C4: constructing the manager returns an absent (nil) manager, and
not an error, exactly when config.enabled is false or config.servers is
empty; otherwise it returns an active manager whose eviction task is running
(its close channel is still open, so ticker ticks perform eviction passes). -/
theorem newClientManager_absent_iff_disabled (config : Config) :
    (NewClientManager config).2 = none ∧
    ((NewClientManager config).1 = none ↔ config.enabled = false ∨ config.servers = []) ∧
    (∀ mgr : ClientManager, (NewClientManager config).1 = some mgr → mgr.closed = false) := by
  refine ⟨?_, ?_, ?_⟩
  · obtain ⟨ce, cs, ci⟩ := config
    cases ce <;> cases cs <;> by_cases ht : ci ≤ 0 <;> simp [NewClientManager, ht]
  · obtain ⟨ce, cs, ci⟩ := config
    cases ce <;> cases cs <;> by_cases ht : ci ≤ 0 <;> simp [NewClientManager, ht]
  · intro mgr h
    rw [newClientManager_characterization] at h
    obtain ⟨-, -, rfl⟩ := h
    rfl

/-- Concrete check of newClientManager_absent_iff_disabled: the sample enabled
one-server configuration yields the active manager mgrW, whose eviction task
is running. -/
theorem newClientManager_absent_iff_disabled_witness :
    (NewClientManager cfgW).1 = some mgrW ∧ mgrW.closed = false :=
  ⟨by decide, (newClientManager_absent_iff_disabled cfgW).2.2 mgrW (by decide)⟩

/-- Claim C10: NewClientManager returns a nil error for every configuration —
construction never fails, so the nil-manager result is the only signal of the
disabled state. -/
theorem newClientManager_never_returns_error (config : Config) :
    (NewClientManager config).2 = none := by
  obtain ⟨ce, cs, ci⟩ := config
  cases ce <;> cases cs <;> by_cases ht : ci ≤ 0 <;> simp [NewClientManager, ht]

/-- Claim C5: a non-positive configured idleTimeoutMinutes yields an effective
idle timeout of exactly 30 minutes (1800 seconds in this model), and a
positive value yields exactly that many minutes. -/
theorem newClientManager_effective_idle_timeout (config : Config) (mgr : ClientManager)
    (h : (NewClientManager config).1 = some mgr) :
    (config.idleTimeoutMinutes ≤ 0 → mgr.clientTimeout = 30 * 60) ∧
    (0 < config.idleTimeoutMinutes → mgr.clientTimeout = config.idleTimeoutMinutes.toNat * 60) := by
  rw [newClientManager_characterization] at h
  obtain ⟨-, -, rfl⟩ := h
  constructor
  · intro ht
    simp [ht]
  · intro ht
    have hn : ¬ config.idleTimeoutMinutes ≤ 0 := by omega
    simp [hn]

/-- Concrete check of newClientManager_effective_idle_timeout: the sample
configuration with idleTimeoutMinutes = 0 produces a 30-minute timeout. -/
theorem newClientManager_effective_idle_timeout_witness :
    cfgW.idleTimeoutMinutes ≤ 0 ∧ mgrW.clientTimeout = 30 * 60 :=
  ⟨by decide, (newClientManager_effective_idle_timeout cfgW mgrW (by decide)).1 (by decide)⟩

/-- Claim C6: teardown closes every remaining per-user session set — each
registered client's close outcome is collected — returns to the caller only
the most recent close failure (nil when every close succeeds), leaves the
registry empty, and stops the eviction task, so a ticker tick after teardown
performs no eviction activity. -/
theorem close_clears_registry_and_stops_eviction (m : ClientManager) (now : Time) :
    m.Close.1.clients = [] ∧
    m.Close.2 = (m.clients.filterMap (fun p => p.2.closeErr)).getLast? ∧
    m.Close.1.closed = true ∧
    cleanupInactiveClientsTick m.Close.1 now = (m.Close.1, []) := by
  refine ⟨rfl, ?_, rfl, ?_⟩
  · simp [ClientManager.Close, close_foldl]
  · simp [cleanupInactiveClientsTick, ClientManager.Close]

/-- Claim C7: during an eviction pass, every expired entry's close failure is
logged and does not abort the scan — the logged failures are exactly those of
all expired entries, every expired entry is removed regardless of whether its
close succeeded, and every non-expired entry survives. -/
theorem cleanup_logs_close_failures_and_removes_expired (m : ClientManager) (now : Time) :
    ((cleanupInactiveClientsPass m now).2 =
      (m.clients.filter (fun p => expiredAt m now p.2)).filterMap (fun p => p.2.closeErr)) ∧
    (∀ u c, (u, c) ∈ m.clients → expiredAt m now c = true →
      ((u, c) ∉ (cleanupInactiveClientsPass m now).1.clients ∧
       ∀ e, c.closeErr = some e → e ∈ (cleanupInactiveClientsPass m now).2)) ∧
    (∀ u c, (u, c) ∈ m.clients → expiredAt m now c = false →
      (u, c) ∈ (cleanupInactiveClientsPass m now).1.clients) := by
  refine ⟨cleanupPass_logs m now, ?_, ?_⟩
  · intro u c hm he
    constructor
    · rw [cleanupPass_clients]
      intro hmem
      rw [List.mem_filter] at hmem
      simp [he] at hmem
    · intro e hce
      rw [cleanupPass_logs, List.mem_filterMap]
      exact ⟨(u, c), List.mem_filter.mpr ⟨hm, by simp [he]⟩, hce⟩
  · intro u c hm he
    rw [cleanupPass_clients, List.mem_filter]
    exact ⟨hm, by simp [he]⟩

/-- Concrete check of cleanup_logs_close_failures_and_removes_expired: at
instant 2000 against mgrAW, bob (idle 2000 > 1800) is expired, the failure of
his close is logged, and alice (idle 1000) survives the pass. -/
theorem cleanup_logs_close_failures_and_removes_expired_witness :
    expiredAt mgrAW 2000 bobClientW = true ∧
    "close failed" ∈ (cleanupInactiveClientsPass mgrAW 2000).2 ∧
    ("alice", aliceClientW) ∈ (cleanupInactiveClientsPass mgrAW 2000).1.clients :=
  ⟨by decide,
   ((cleanup_logs_close_failures_and_removes_expired mgrAW 2000).2.1 "bob" bobClientW
      (by decide) (by decide)).2 "close failed" (by decide),
   (cleanup_logs_close_failures_and_removes_expired mgrAW 2000).2.2 "alice" aliceClientW
      (by decide) (by decide)⟩

theorem survives_runPasses (m : ClientManager) (u : UserID) (c : UserClient)
    (times : List Time) (hl : lookupA m.clients u = some c)
    (htimes : ∀ x ∈ times, x - c.lastActivity ≤ m.clientTimeout) :
    lookupA (runPasses m times).clients u = some c := by
  induction times generalizing m with
  | nil => simpa [runPasses] using hl
  | cons x rest ih =>
    simp only [runPasses]
    apply ih
    · rw [cleanupPass_clients]
      apply lookupA_filter _ _ _ _ hl
      have hx := htimes x (by simp)
      simp only [expiredAt]
      simpa using Nat.not_lt.mpr hx
    · intro y hy
      exact htimes y (List.mem_cons_of_mem x hy)

/-- Claim C3: one eviction pass removes exactly the entries whose idle time
now - lastActivity strictly exceeds the timeout; a successful catalog lookup
of an existing entry refreshes its lastActivity to the lookup time; and an
entry last accessed at time t survives every subsequent sequence of eviction
passes whose instants stay within the timeout of t. -/
theorem eviction_exact_and_lookup_refreshes
    (m : ClientManager) (connect : String → ServerConfig → Except String (List ToolDefinition))
    (u : UserID) (c : UserClient) (t now : Time) (times : List Time) :
    ((u, c) ∈ (cleanupInactiveClientsPass m now).1.clients ↔
      (u, c) ∈ m.clients ∧ now - c.lastActivity ≤ m.clientTimeout) ∧
    (lookupA m.clients u = some c →
      (getClientForUser connect m u t).1 = Except.ok { c with lastActivity := t } ∧
      lookupA (getClientForUser connect m u t).2.1.clients u =
        some { c with lastActivity := t }) ∧
    (lookupA m.clients u = some c → c.lastActivity = t →
      (∀ x ∈ times, x - t ≤ m.clientTimeout) →
      lookupA (runPasses m times).clients u = some c) := by
  refine ⟨?_, ?_, ?_⟩
  · rw [cleanupPass_clients, List.mem_filter]
    simp [expiredAt, Nat.not_lt]
  · intro hl
    refine ⟨by simp [getClientForUser, hl], ?_⟩
    simp only [getClientForUser, hl]
    exact lookupA_insertA_self _ _ _
  · intro hl hact htimes
    apply survives_runPasses _ _ _ _ hl
    rw [hact]
    exact htimes

/-- Concrete check of eviction_exact_and_lookup_refreshes: looking alice up at
instant 2000 refreshes her lastActivity to 2000, and with her lastActivity of
1000 the entry survives passes at instants 1500 and 2500 (both within the
1800-second timeout of 1000). -/
theorem eviction_exact_and_lookup_refreshes_witness :
    lookupA (getClientForUser connectOkW mgrAW "alice" 2000).2.1.clients "alice" =
      some { aliceClientW with lastActivity := 2000 } ∧
    lookupA (runPasses mgrAW [1500, 2500]).clients "alice" = some aliceClientW :=
  ⟨((eviction_exact_and_lookup_refreshes mgrAW connectOkW "alice" aliceClientW 2000 0
      []).2.1 (by decide)).2,
   (eviction_exact_and_lookup_refreshes mgrAW connectOkW "alice" aliceClientW 1000 0
      [1500, 2500]).2.2 (by decide) (by decide) (by decide)⟩

/-- Claim C2: for a never-seen user whose first-access connect sequence fails,
GetToolsForUser returns an error, publishes no entry for the user into the
registry (the manager state is unchanged, no partial catalog is cached), and
a subsequent GetToolsForUser call for the same user re-attempts the full
connect sequence from scratch (its ghost counter records a fresh connect
sequence rather than any reuse of cached state). -/
theorem first_access_failure_not_cached
    (connect : String → ServerConfig → Except String (List ToolDefinition))
    (m : ClientManager) (u : UserID) (t1 t2 : Time) (e : String)
    (hu : lookupA m.clients u = none)
    (hc : ConnectToAllServers connect m.config.servers (newUserClient u t1) =
      Except.error e) :
    (GetToolsForUser connect m u t1).1 =
      Except.error ("failed to get MCP client for user " ++ u ++ ": " ++
        ("failed to initialize MCP client for user " ++ u ++ ": " ++ e)) ∧
    (GetToolsForUser connect m u t1).2.1 = m ∧
    lookupA (GetToolsForUser connect m u t1).2.1.clients u = none ∧
    (GetToolsForUser connect ((GetToolsForUser connect m u t1).2.1) u t2).2.2 = 1 := by
  have h1 : getClientForUser connect m u t1 =
      (Except.error ("failed to initialize MCP client for user " ++ u ++ ": " ++ e), m, 1) := by
    simp [getClientForUser, createAndStoreUserClient, hu, hc]
  have h2 : GetToolsForUser connect m u t1 =
      (Except.error ("failed to get MCP client for user " ++ u ++ ": " ++
        ("failed to initialize MCP client for user " ++ u ++ ": " ++ e)), m, 1) := by
    simp [GetToolsForUser, h1]
  refine ⟨by rw [h2], by rw [h2], by rw [h2]; exact hu, ?_⟩
  rw [h2]
  cases hc2 : ConnectToAllServers connect m.config.servers (newUserClient u t2) <;>
    simp [GetToolsForUser, getClientForUser, createAndStoreUserClient, hu, hc2]

/-- Concrete check of first_access_failure_not_cached: against the fresh
manager mgrW with an always-failing connect, the first request for alice
leaves the manager unchanged and the follow-up request issues one fresh
connect sequence. -/
theorem first_access_failure_not_cached_witness :
    (GetToolsForUser connectFailW mgrW "alice" 5).2.1 = mgrW ∧
    (GetToolsForUser connectFailW ((GetToolsForUser connectFailW mgrW "alice" 5).2.1)
      "alice" 6).2.2 = 1 :=
  ⟨(first_access_failure_not_cached connectFailW mgrW "alice" 5 6 "connection refused"
      rfl rfl).2.1,
   (first_access_failure_not_cached connectFailW mgrW "alice" 5 6 "connection refused"
      rfl rfl).2.2.2⟩

theorem connectToAllServers_ok
    (connect : String → ServerConfig → Except String (List ToolDefinition))
    (servers : List (String × ServerConfig)) (uc : UserClient)
    (h : ∀ p ∈ servers, ∃ tds, connect p.1 p.2 = Except.ok tds) :
    ∃ uc2, ConnectToAllServers connect servers uc = Except.ok uc2 := by
  induction servers generalizing uc with
  | nil => exact ⟨uc, rfl⟩
  | cons p rest ih =>
    obtain ⟨name, sc⟩ := p
    obtain ⟨tds, htds⟩ := h (name, sc) (by simp)
    simp only [ConnectToAllServers, htds]
    exact ih _ (fun q hq => h q (List.mem_cons_of_mem _ hq))

theorem getElem?_set_cases {α : Type} (l : List α) (i j : Nat) (x y : α)
    (h : (l.set i x)[j]? = some y) : (i = j ∧ x = y) ∨ l[j]? = some y := by
  by_cases hij : i = j
  · subst hij
    by_cases hlen : i < l.length
    · rw [List.getElem?_set_self hlen] at h
      exact Or.inl ⟨rfl, by injection h⟩
    · rw [List.getElem?_set] at h
      simp [hlen] at h
  · right
    rwa [List.getElem?_set_ne hij] at h

theorem singleFlightInv_step
    (connect : String → ServerConfig → Except String (List ToolDefinition))
    (u : UserID) (now : Time) (cfg : Config)
    (hok : ∀ p ∈ cfg.servers, ∃ tds, connect p.1 p.2 = Except.ok tds)
    (s : ConcurrentRun) (i : Nat) (h : SingleFlightInv u cfg s) :
    SingleFlightInv u cfg (callerStep connect u now s i) := by
  obtain ⟨hcfg, hle, hiff, hdone⟩ := h
  unfold callerStep
  cases hpi : s.phases[i]? with
  | none => exact ⟨hcfg, hle, hiff, hdone⟩
  | some ph =>
    cases ph with
    | start =>
      cases hlu : lookupA s.mgr.clients u with
      | some c =>
        have hreg : s.connects = 1 := hiff.mp (by rw [hlu]; rfl)
        refine ⟨hcfg, hle, ?_, ?_⟩
        · rw [lookupA_insertA_self]
          simp [hreg]
        · intro j b hj
          rcases getElem?_set_cases _ _ _ _ _ hj with ⟨-, hx⟩ | hold
          · cases hx
            exact ⟨rfl, by rw [lookupA_insertA_self]; rfl⟩
          · exact ⟨(hdone j b hold).1, by rw [lookupA_insertA_self]; rfl⟩
      | none =>
        refine ⟨hcfg, hle, hiff, ?_⟩
        intro j b hj
        rcases getElem?_set_cases _ _ _ _ _ hj with ⟨-, hx⟩ | hold
        · cases hx
        · exact hdone j b hold
    | create =>
      cases hlu : lookupA s.mgr.clients u with
      | some c =>
        have hreg : s.connects = 1 := hiff.mp (by rw [hlu]; rfl)
        simp only [createAndStoreUserClient, hlu]
        refine ⟨hcfg, by simpa using hle, ?_, ?_⟩
        · rw [lookupA_insertA_self]
          simp [hreg]
        · intro j b hj
          rcases getElem?_set_cases _ _ _ _ _ hj with ⟨-, hx⟩ | hold
          · cases hx
            exact ⟨rfl, by rw [lookupA_insertA_self]; rfl⟩
          · exact ⟨(hdone j b hold).1, by rw [lookupA_insertA_self]; rfl⟩
      | none =>
        have hnreg : s.connects = 0 := by
          have h1 : ¬ s.connects = 1 := fun hc1 => by
            have h2 := hiff.mpr hc1
            rw [hlu] at h2
            cases h2
          omega
        obtain ⟨uc2, huc2⟩ :=
          connectToAllServers_ok connect cfg.servers (newUserClient u now) hok
        rw [← hcfg] at huc2
        simp only [createAndStoreUserClient, hlu, huc2]
        refine ⟨hcfg, by simp [hnreg], ?_, ?_⟩
        · rw [lookupA_insertA_self]
          simp [hnreg]
        · intro j b hj
          rcases getElem?_set_cases _ _ _ _ _ hj with ⟨-, hx⟩ | hold
          · cases hx
            exact ⟨rfl, by rw [lookupA_insertA_self]; rfl⟩
          · have h2 := (hdone j b hold).2
            rw [hlu] at h2
            cases h2
    | done b0 => exact ⟨hcfg, hle, hiff, hdone⟩

theorem singleFlightInv_run
    (connect : String → ServerConfig → Except String (List ToolDefinition))
    (u : UserID) (now : Time) (cfg : Config)
    (hok : ∀ p ∈ cfg.servers, ∃ tds, connect p.1 p.2 = Except.ok tds)
    (s : ConcurrentRun) (sched : List Nat) (h : SingleFlightInv u cfg s) :
    SingleFlightInv u cfg (runSchedule connect u now s sched) := by
  induction sched generalizing s with
  | nil => exact h
  | cons i rest ih =>
    exact ih _ (singleFlightInv_step connect u now cfg hok s i h)

theorem singleFlightInv_init (u : UserID) (m : ClientManager) (n : Nat)
    (hu : lookupA m.clients u = none) :
    SingleFlightInv u m.config (initRun m n) := by
  refine ⟨rfl, by simp [initRun], by simp [initRun, hu], ?_⟩
  intro i b hj
  simp only [initRun, List.getElem?_replicate] at hj
  split at hj
  · cases hj
  · cases hj

theorem failRetryInv_step
    (connect : String → ServerConfig → Except String (List ToolDefinition))
    (u : UserID) (now : Time) (cfg : Config)
    (hbad : ∃ e, ConnectToAllServers connect cfg.servers (newUserClient u now) =
      Except.error e)
    (s : ConcurrentRun) (i : Nat) (h : FailRetryInv u cfg s) :
    FailRetryInv u cfg (callerStep connect u now s i) := by
  obtain ⟨hcfg, hlu, hcount, hdone⟩ := h
  unfold callerStep
  cases hpi : s.phases[i]? with
  | none => exact ⟨hcfg, hlu, hcount, hdone⟩
  | some ph =>
    cases ph with
    | start =>
      simp only [hlu]
      refine ⟨hcfg, hlu, ?_, ?_⟩
      · obtain ⟨hlen, hget⟩ := List.getElem?_eq_some.mp hpi
        simp only []
        rw [List.countP_set _ _ _ _ hlen, hget]
        simp [isDonePhase, hcount]
      · intro j b hj
        rcases getElem?_set_cases _ _ _ _ _ hj with ⟨-, hx⟩ | hold
        · cases hx
        · exact hdone j b hold
    | create =>
      obtain ⟨e, he⟩ := hbad
      rw [← hcfg] at he
      simp only [createAndStoreUserClient, hlu, he]
      refine ⟨hcfg, hlu, ?_, ?_⟩
      · obtain ⟨hlen, hget⟩ := List.getElem?_eq_some.mp hpi
        simp only []
        rw [List.countP_set _ _ _ _ hlen, hget]
        simp [isDonePhase, hcount]
      · intro j b hj
        rcases getElem?_set_cases _ _ _ _ _ hj with ⟨-, hx⟩ | hold
        · cases hx
          rfl
        · exact hdone j b hold
    | done b0 => exact ⟨hcfg, hlu, hcount, hdone⟩

theorem failRetryInv_run
    (connect : String → ServerConfig → Except String (List ToolDefinition))
    (u : UserID) (now : Time) (cfg : Config)
    (hbad : ∃ e, ConnectToAllServers connect cfg.servers (newUserClient u now) =
      Except.error e)
    (s : ConcurrentRun) (sched : List Nat) (h : FailRetryInv u cfg s) :
    FailRetryInv u cfg (runSchedule connect u now s sched) := by
  induction sched generalizing s with
  | nil => exact h
  | cons i rest ih =>
    exact ih _ (failRetryInv_step connect u now cfg hbad s i h)

theorem failRetryInv_init (u : UserID) (m : ClientManager) (n : Nat)
    (hu : lookupA m.clients u = none) :
    FailRetryInv u m.config (initRun m n) := by
  refine ⟨rfl, hu, ?_, ?_⟩
  · simp only [initRun]
    rw [eq_comm, List.countP_eq_zero]
    intro a ha
    rw [List.eq_of_mem_replicate ha]
    simp [isDonePhase]
  · intro i b hj
    simp only [initRun, List.getElem?_replicate] at hj
    split at hj
    · cases hj
    · cases hj

/-- Claim C1 counterexample: with a connect that always fails, two concurrent
first-access catalog requests for the unseen user u1 against the fresh
manager mgrW — both read-locked lookups miss, then each caller in turn runs
the exclusive-locked createAndStoreUserClient — issue two multi-server
connect sequences, not one: the second caller does not observe the first
attempt's propagated failure but performs its own connect sequence end to
end, both callers completing with their own failures. -/
theorem concurrent_failure_duplicate_connects :
    (runSchedule connectFailW "u1" 0 (initRun mgrW 2) [0, 1, 0, 1]).connects = 2 ∧
    (runSchedule connectFailW "u1" 0 (initRun mgrW 2) [0, 1, 0, 1]).phases =
      [CallerPhase.done false, CallerPhase.done false] := by
  constructor
  · decide
  · decide

/-- Claim C1 amended: under concurrent first-access catalog requests for the
same unseen user, when the per-server connects succeed, at most one
multi-server connect sequence is issued over any interleaving — exactly one
once any caller has completed — and every completed caller observes the
single attempt's successful result; when the connect sequence fails, the
failure is not cached: nothing is registered for the user, every completed
caller got a failure, and the number of connect sequences issued equals the
number of completed callers — each caller, serialized behind the exclusive
lock, re-attempts the connect sequence itself instead of observing the first
attempt's failure. -/
theorem single_flight_success_and_uncached_failure
    (connect : String → ServerConfig → Except String (List ToolDefinition))
    (u : UserID) (now : Time) (m : ClientManager) (n : Nat) (sched : List Nat)
    (hu : lookupA m.clients u = none) :
    ((∀ p ∈ m.config.servers, ∃ tds, connect p.1 p.2 = Except.ok tds) →
      (runSchedule connect u now (initRun m n) sched).connects ≤ 1 ∧
      ∀ (i : Nat) (b : Bool),
        (runSchedule connect u now (initRun m n) sched).phases[i]? =
          some (CallerPhase.done b) →
        b = true ∧ (runSchedule connect u now (initRun m n) sched).connects = 1) ∧
    ((∃ e, ConnectToAllServers connect m.config.servers (newUserClient u now) =
        Except.error e) →
      lookupA (runSchedule connect u now (initRun m n) sched).mgr.clients u = none ∧
      (runSchedule connect u now (initRun m n) sched).connects =
        (runSchedule connect u now (initRun m n) sched).phases.countP isDonePhase ∧
      ∀ (i : Nat) (b : Bool),
        (runSchedule connect u now (initRun m n) sched).phases[i]? =
          some (CallerPhase.done b) →
        b = false) := by
  constructor
  · intro hok
    obtain ⟨-, hle, hiff, hdone⟩ :=
      singleFlightInv_run connect u now m.config hok _ sched (singleFlightInv_init u m n hu)
    exact ⟨hle, fun i b hj => ⟨(hdone i b hj).1, hiff.mp (hdone i b hj).2⟩⟩
  · intro hbad
    obtain ⟨-, hlu2, hcount, hdone⟩ :=
      failRetryInv_run connect u now m.config hbad _ sched (failRetryInv_init u m n hu)
    exact ⟨hlu2, hcount, hdone⟩

/-- Concrete check of single_flight_success_and_uncached_failure: the same
two-caller interleaving as the counterexample, but with a succeeding connect,
issues exactly one connect sequence. -/
theorem single_flight_success_and_uncached_failure_witness :
    (runSchedule connectOkW "u1" 0 (initRun mgrW 2) [0, 1, 0, 1]).connects = 1 :=
  (((single_flight_success_and_uncached_failure connectOkW "u1" 0 mgrW 2 [0, 1, 0, 1]
      rfl).1 (fun p hp => ⟨[toolW], rfl⟩)).2 0 true (by decide)).2

/-- Claim C9: when the configured servers are two servers that each advertise
a tool with the same name, the aggregated catalog of a freshly connected user
client contains exactly one entry under that name, bound to the
later-registered server. -/
theorem duplicate_tool_name_later_server_wins
    (connect : String → ServerConfig → Except String (List ToolDefinition))
    (u : UserID) (t : Time) (na nb x : String) (sa sb : ServerConfig)
    (t1 t2 : ToolDefinition)
    (h1 : connect na sa = Except.ok [t1]) (h2 : connect nb sb = Except.ok [t2])
    (hx1 : t1.name = x) (hx2 : t2.name = x) :
    ConnectToAllServers connect [(na, sa), (nb, sb)] (newUserClient u t) =
      Except.ok { toolDefs := [(x, { t2 with serverName := nb })]
                  lastActivity := t, userID := u, closeErr := none } ∧
    ∀ uc, ConnectToAllServers connect [(na, sa), (nb, sb)] (newUserClient u t) =
        Except.ok uc →
      uc.toolDefs.countP (fun p => p.1 == x) = 1 ∧
      lookupA uc.toolDefs x = some { t2 with serverName := nb } := by
  subst hx1
  have hmain : ConnectToAllServers connect [(na, sa), (nb, sb)] (newUserClient u t) =
      Except.ok { toolDefs := [(t1.name, { t2 with serverName := nb })]
                  lastActivity := t, userID := u, closeErr := none } := by
    simp [ConnectToAllServers, h1, h2, registerTools, insertA, newUserClient, hx2]
  refine ⟨hmain, ?_⟩
  intro uc huc
  rw [hmain] at huc
  injection huc with huc
  subst huc
  constructor
  · simp [List.countP_cons]
  · simp [lookupA]

/-- Concrete check of duplicate_tool_name_later_server_wins: servers a and b
both advertise a tool named x; connecting yields exactly one catalog entry
for x, bound to b. -/
theorem duplicate_tool_name_later_server_wins_witness :
    ConnectToAllServers connectTwoW [("a", srvW), ("b", srvW)] (newUserClient "u1" 0) =
      Except.ok ucTwoW ∧
    ucTwoW.toolDefs.countP (fun p => p.1 == "x") = 1 ∧
    lookupA ucTwoW.toolDefs "x" = some { tool2W with serverName := "b" } :=
  ⟨(duplicate_tool_name_later_server_wins connectTwoW "u1" 0 "a" "b" "x" srvW srvW
      toolW tool2W rfl rfl rfl rfl).1,
   ((duplicate_tool_name_later_server_wins connectTwoW "u1" 0 "a" "b" "x" srvW srvW
      toolW tool2W rfl rfl rfl rfl).2 ucTwoW
     (duplicate_tool_name_later_server_wins connectTwoW "u1" 0 "a" "b" "x" srvW srvW
      toolW tool2W rfl rfl rfl rfl).1).1,
   ((duplicate_tool_name_later_server_wins connectTwoW "u1" 0 "a" "b" "x" srvW srvW
      toolW tool2W rfl rfl rfl rfl).2 ucTwoW
     (duplicate_tool_name_later_server_wins connectTwoW "u1" 0 "a" "b" "x" srvW srvW
      toolW tool2W rfl rfl rfl rfl).1).2⟩

end MCP

namespace Conversations

theorem resolveToolCalls_eq_map (resolveTool : String → String → Except String String)
    (accepted : List String) (tools : List ToolCall) :
    resolveToolCalls resolveTool accepted tools = tools.map (resolveOne resolveTool accepted) := by
  induction tools with
  | nil => rfl
  | cons tc rest ih => simp [resolveToolCalls, ih]

theorem resolveOne_status_success_iff (resolveTool : String → String → Except String String)
    (accepted : List String) (tc : ToolCall) :
    (resolveOne resolveTool accepted tc).status = ToolCallStatus.success ↔
      accepted.contains tc.id = true ∧ ∃ r, resolveTool tc.name tc.arguments = Except.ok r := by
  unfold resolveOne
  by_cases hid : tc.id ∈ accepted
  · cases hr : resolveTool tc.name tc.arguments <;> simp [hid, hr]
  · simp [hid]

/-- Claim C8: in HandleToolCall, every pending tool call in the batch is
processed — a per-tool resolution failure is converted into the textual
result Tool call failed with error status on that call alone and does not
abort the batch — and the handler proceeds to request a final completion
answer exactly when at least one accepted call resolved successfully. -/
theorem handleToolCall_batch_resolution
    (resolveTool : String → String → Except String String)
    (accepted : List String) (tools : List ToolCall) :
    (HandleToolCallCore resolveTool accepted tools).1.length = tools.length ∧
    (∀ (i : Nat) (tc : ToolCall), tools[i]? = some tc →
      (HandleToolCallCore resolveTool accepted tools).1[i]? =
        some (resolveOne resolveTool accepted tc)) ∧
    (∀ (tc : ToolCall) (e : String), accepted.contains tc.id = true →
      resolveTool tc.name tc.arguments = Except.error e →
      (resolveOne resolveTool accepted tc).result = "Tool call failed" ∧
      (resolveOne resolveTool accepted tc).status = ToolCallStatus.error) ∧
    ((HandleToolCallCore resolveTool accepted tools).2 = true ↔
      ∃ tc ∈ tools, accepted.contains tc.id = true ∧
        ∃ r, resolveTool tc.name tc.arguments = Except.ok r) := by
  refine ⟨?_, ?_, ?_, ?_⟩
  · simp [HandleToolCallCore, resolveToolCalls_eq_map]
  · intro i tc h
    simp [HandleToolCallCore, resolveToolCalls_eq_map, List.getElem?_map, h]
  · intro tc e hid hr
    have hm : tc.id ∈ accepted := by simpa using hid
    simp [resolveOne, hm, hr]
  · simp only [HandleToolCallCore, proceedsToCompletion, resolveToolCalls_eq_map,
      List.any_map, List.any_eq_true, Function.comp]
    constructor
    · rintro ⟨tc, htc, hs⟩
      exact ⟨tc, htc, (resolveOne_status_success_iff _ _ _).mp (by simpa using hs)⟩
    · rintro ⟨tc, htc, hca, r, hr⟩
      have hs := (resolveOne_status_success_iff resolveTool accepted tc).mpr ⟨hca, r, hr⟩
      exact ⟨tc, htc, by simp [hs]⟩

/-- Concrete check of handleToolCall_batch_resolution: in a batch holding an
accepted call that resolves and an accepted call whose resolution fails, the
failing call gets the textual failure result while the handler still proceeds
to the final completion. -/
theorem handleToolCall_batch_resolution_witness :
    (resolveOne resolveW ["1", "2"] tcBad).result = "Tool call failed" ∧
    (HandleToolCallCore resolveW ["1", "2"] [tcGood, tcBad]).2 = true :=
  ⟨((handleToolCall_batch_resolution resolveW ["1", "2"] [tcGood, tcBad]).2.2.1 tcBad
      "bad tool" (by decide) rfl).1,
   (handleToolCall_batch_resolution resolveW ["1", "2"] [tcGood, tcBad]).2.2.2.mpr
      ⟨tcGood, by decide, by decide, "fine", rfl⟩⟩

end Conversations
